import Mathlib

/-!
Shallow embedding of `humidity_pipeline.py` (class `HumidityProcessor`).

Modelling conventions:
* Floating-point coordinates and humidity values are embedded as rationals `ℚ`
  (exact arithmetic; the source's float tolerance questions become exact equalities).
* A pandas timestamp is embedded by the only two fields the pipeline reads,
  `year` and `month` (both `Int`, months ranging over 1..12 in real data).
* A missing (`NaN`) humidity value is `Option.none`.
* The external collaborators are parameters: the land/ocean oracle
  `globe.is_land` is a function `ℚ → ℚ → Bool`, the remote Zarr store is a pair
  (time axis, rows) plus a Boolean for whether opening it succeeds, and the
  external `tippecanoe` binary is a function from its argument list to an exit
  code and a diagnostic stream.
* Python string operations used for file naming (`os.path.basename`,
  `str.replace`) are embedded on `List Char`.
* A function that the source makes return `None`/`False` on its failure path is
  embedded with an `Option` result; `none` is the failure outcome.
-/

namespace HumidityPipeline

/-- The two timestamp fields the pipeline reads (`t.year`, `t.month`). -/
structure Timestamp where
  year : Int
  month : Int
deriving DecidableEq, Repr

/-- One row of the flat table produced by the fetcher:
columns `time`, `lat`, `lon`, `RH2M` (the value, `none` when NaN). -/
structure RawRow where
  time : Timestamp
  lat : ℚ
  lon : ℚ
  value : Option ℚ
deriving DecidableEq, Repr

/-- One row of a monthly CSV: exactly the four selected columns
`['time', 'lat', 'lon', 'RH2M']` and nothing else. -/
structure MonthlyRow where
  time : Timestamp
  lat : ℚ
  lon : ℚ
  RH2M : Option ℚ
deriving DecidableEq, Repr

/-- A row of the dataframe after `split_monthly_data` adds the
`year` and `month` columns. -/
structure AugRow where
  time : Timestamp
  lat : ℚ
  lon : ℚ
  value : Option ℚ
  year : Int
  month : Int
deriving DecidableEq, Repr

/-- `df['year'] = ...dt.year; df['month'] = ...dt.month`. -/
def augmentRow (r : RawRow) : AugRow :=
  ⟨r.time, r.lat, r.lon, r.value, r.time.year, r.time.month⟩

/-- `group[['time', 'lat', 'lon', 'RH2M']]`: the four-column projection. -/
def selectColumns (a : AugRow) : MonthlyRow :=
  ⟨a.time, a.lat, a.lon, a.value⟩

/-- `self.VARIABLE`. -/
def VARIABLE : String := "RH2M"

/-- `self.OUTPUT_DIR`. -/
def OUTPUT_DIR : String := "humidity_data_output"

/-- `self.MBTILES_DIR`. -/
def MBTILES_DIR : String := "humidity_mbtiles_output"

/-- Does the first list start with the second one? -/
def listStartsWith : List Char → List Char → Bool
  | _, [] => true
  | [], _ :: _ => false
  | a :: as, b :: bs => a == b && listStartsWith as bs

/-- Python `str.replace`, on character lists, with explicit fuel
(the fuel is instantiated to the string length, which always suffices since
every step consumes at least one character). -/
def pyReplaceAux (pat repl : List Char) : Nat → List Char → List Char
  | 0, l => l
  | _ + 1, [] => []
  | fuel + 1, c :: rest =>
    if !pat.isEmpty && listStartsWith (c :: rest) pat then
      repl ++ pyReplaceAux pat repl fuel (List.drop (pat.length - 1) rest)
    else
      c :: pyReplaceAux pat repl fuel rest

/-- Python `s.replace(pat, repl)` (for the nonempty patterns the pipeline uses). -/
def pyReplace (s pat repl : String) : String :=
  ⟨pyReplaceAux pat.data repl.data s.data.length s.data⟩

/-- `os.path.basename`: the part after the last `/`. -/
def basename (s : String) : String :=
  ⟨(s.data.reverse.takeWhile (fun c => c ≠ '/')).reverse⟩

/-- Python `f"{n:02d}"` for the nonnegative values the pipeline formats. -/
def pad2 (n : Int) : String :=
  if n < 10 then "0" ++ toString n else toString n

/-- `HumidityProcessor.time_filter`: keep timestamps from 2022-01 to 2025-05. -/
def time_filter (t : Timestamp) : Bool :=
  (decide (t.year > 2021) || (decide (t.year = 2022) && decide (t.month ≥ 1))) &&
  (decide (t.year < 2025) || (decide (t.year = 2025) && decide (t.month ≤ 5)))

/-- Name of the full-range CSV written by `download_humidity_data`. -/
def mainCsvName : String :=
  OUTPUT_DIR ++ "/" ++ VARIABLE ++ "_monthly_2022_2025.csv"

/-- `HumidityProcessor.download_humidity_data`.  `storeOk` models whether
opening the remote Zarr store succeeds; `times` is the store's time axis and
`rows` the flat table of the named variable.  The source catches every
exception (store failure, or the `ValueError` raised when no timestamp matches
the range) and returns `None`, embedded here as `none`.  On success the rows
are restricted to the filtered timestamps and NaN values are dropped
(`df.dropna(subset=['RH2M'])`) before the table is saved and returned. -/
def download_humidity_data (storeOk : Bool) (times : List Timestamp)
    (rows : List RawRow) : Option (List RawRow) :=
  if !storeOk then none
  else
    let filtered_times := times.filter time_filter
    if filtered_times.isEmpty then none
    else
      let subset := rows.filter (fun r => decide (r.time ∈ filtered_times))
      some (subset.filter (fun r => r.value.isSome))

/-- Grouping key of a row: `(year, month)`. -/
def rowKey (r : RawRow) : Int × Int := (r.time.year, r.time.month)

/-- The (non-strict) ordering pandas `groupby(['year', 'month'])` sorts keys by. -/
def keyLE (a b : Int × Int) : Prop :=
  a.1 < b.1 ∨ (a.1 = b.1 ∧ a.2 ≤ b.2)

instance : DecidableRel keyLE := fun a b =>
  inferInstanceAs (Decidable (a.1 < b.1 ∨ (a.1 = b.1 ∧ a.2 ≤ b.2)))

instance : IsTotal (Int × Int) keyLE := ⟨by
  intro a b
  unfold keyLE
  omega⟩

instance : IsTrans (Int × Int) keyLE := ⟨by
  intro a b c
  unfold keyLE
  omega⟩

/-- Strict ascending order on `(year, month)` keys. -/
def keyLT (a b : Int × Int) : Prop :=
  a.1 < b.1 ∨ (a.1 = b.1 ∧ a.2 < b.2)

/-- `f"humidity_{month:02d}_{year}.csv"` inside `OUTPUT_DIR`. -/
def monthlyFilename (k : Int × Int) : String :=
  OUTPUT_DIR ++ "/humidity_" ++ pad2 k.2 ++ "_" ++ toString k.1 ++ ".csv"

/-- `HumidityProcessor.split_monthly_data`: add `year`/`month` columns, group by
them (pandas `groupby` with its default ascending key sort and stable
within-group row order), and write one four-column CSV per group.  The result
lists, per group in ascending key order, the key, the file written, and its
rows. -/
def split_monthly_data (df : List RawRow) :
    List ((Int × Int) × String × List MonthlyRow) :=
  let aug := df.map augmentRow
  let keys := List.insertionSort keyLE ((aug.map (fun a => (a.year, a.month))).dedup)
  keys.map (fun k =>
    (k, monthlyFilename k,
      (aug.filter (fun a => decide ((a.year, a.month) = k))).map selectColumns))

/-- `sorted(column.unique())`. -/
def sortedUnique (vals : List ℚ) : List ℚ :=
  List.insertionSort (· ≤ ·) vals.dedup

/-- Grid-resolution inference of `csv_to_geojson`: the absolute difference of
the two smallest distinct coordinates, or the fallback when fewer than two
distinct values exist. -/
def gridRes (vals : List ℚ) (fallback : ℚ) : ℚ :=
  match sortedUnique vals with
  | a :: b :: _ => |b - a|
  | _ => fallback

/-- The polygon ring of one grid cell, in source order:
SW, SE, NE, NW, SW (closing vertex). -/
def cellRing (lon lat half_lon half_lat : ℚ) : List (ℚ × ℚ) :=
  [(lon - half_lon, lat - half_lat),
   (lon + half_lon, lat - half_lat),
   (lon + half_lon, lat + half_lat),
   (lon - half_lon, lat + half_lat),
   (lon - half_lon, lat - half_lat)]

/-- One emitted GeoJSON feature: the exterior ring of its polygon and the
properties `humidity`, `time`, `lat`, `lon`. -/
structure Feature where
  coordinates : List (ℚ × ℚ)
  humidity : ℚ
  time : Timestamp
  lat : ℚ
  lon : ℚ
deriving DecidableEq, Repr

/-- The feature built for one surviving row with humidity value `h`. -/
def gridCellFeature (lat_res lon_res : ℚ) (r : MonthlyRow) (h : ℚ) : Feature :=
  { coordinates := cellRing r.lon r.lat (lon_res / 2) (lat_res / 2)
    humidity := h
    time := r.time
    lat := r.lat
    lon := r.lon }

/-- `HumidityProcessor.csv_to_geojson` on the rows of one monthly CSV:
fail (`return False`, embedded as `none`) on an empty table or when no row
survives the land filter; otherwise infer one `(lat_res, lon_res)` pair for the
whole month and emit one feature per land row, skipping NaN values. -/
def csv_to_geojson (is_land : ℚ → ℚ → Bool) (df : List MonthlyRow) :
    Option (List Feature) :=
  if df.isEmpty then none
  else
    let df_land := df.filter (fun r => is_land r.lat r.lon)
    if df_land.isEmpty then none
    else
      let lat_res := gridRes (df_land.map (fun r => r.lat)) (1/2)
      let lon_res := gridRes (df_land.map (fun r => r.lon)) (5/8)
      some (df_land.filterMap (fun r => r.RH2M.map (gridCellFeature lat_res lon_res r)))

/-- `HumidityProcessor.create_geojsons`: one GeoJSON document per monthly CSV
that converts successfully; failed months are skipped and the loop continues. -/
def create_geojsons (is_land : ℚ → ℚ → Bool)
    (monthly_files : List (String × List MonthlyRow)) :
    List (String × List Feature) :=
  monthly_files.filterMap (fun mf =>
    let base_name := pyReplace (basename mf.1) ".csv" ""
    match csv_to_geojson is_land mf.2 with
    | some feats => some (OUTPUT_DIR ++ "/" ++ base_name ++ "_land.geojson", feats)
    | none => none)

/-- Outcome of one run of the external tiling tool. -/
structure ToolRun where
  exitCode : Int
  diagnostics : String
deriving DecidableEq, Repr

/-- The fixed tippecanoe argument list built by `geojson_to_mbtiles_tippecanoe`. -/
def tippecanoe_cmd (geojson_file output_mbtiles : String) : List String :=
  ["tippecanoe", "-o", output_mbtiles, "-z", "10", "-Z", "0",
   "--no-feature-limit", "--no-tile-size-limit", "-B0",
   "--drop-densest-as-needed", "--extend-zooms-if-still-dropping",
   "--force", geojson_file]

/-- `HumidityProcessor.geojson_to_mbtiles_tippecanoe`: run the tool, succeed
exactly on exit code `0`; on failure, return `false` together with the logged
diagnostic stream (`result.stderr`). -/
def geojson_to_mbtiles_tippecanoe (tool : List String → ToolRun)
    (geojson_file output_mbtiles : String) : Bool × Option String :=
  let result := tool (tippecanoe_cmd geojson_file output_mbtiles)
  if result.exitCode = 0 then (true, none) else (false, some result.diagnostics)

/-- `HumidityProcessor.create_mbtiles`: one tile archive per GeoJSON file for
which the tool succeeds; failed months are skipped and the loop continues. -/
def create_mbtiles (tool : List String → ToolRun) (geojson_files : List String) :
    List String :=
  geojson_files.filterMap (fun geojson_file =>
    let base_name := pyReplace (basename geojson_file) "_land.geojson" ""
    let mbtiles_file := MBTILES_DIR ++ "/" ++ base_name ++ "_land.mbtiles"
    if (geojson_to_mbtiles_tippecanoe tool geojson_file mbtiles_file).1 then
      some mbtiles_file
    else none)

/-- The tileserver configuration document. -/
structure TileserverConfig where
  root : String
  mbtilesDir : String
  serveStaticMaps : Bool
  jpegQuality : Nat
  webpQuality : Nat
  maxSize : Nat
  pbfAlias : String
  data : List (String × String)
deriving DecidableEq, Repr

/-- Python `dict` assignment `d[k] = v`: overwrite in place when the key
exists, else append. -/
def dictSet (d : List (String × String)) (k v : String) :
    List (String × String) :=
  if d.any (fun e => e.1 == k) then
    d.map (fun e => if e.1 == k then (k, v) else e)
  else d ++ [(k, v)]

/-- The config key derived from one archive:
`basename(f).replace('_land.mbtiles', '') + '_land'`. -/
def layerKey (mbtiles_file : String) : String :=
  pyReplace (basename mbtiles_file) "_land.mbtiles" "" ++ "_land"

/-- `HumidityProcessor.create_tileserver_config`. -/
def create_tileserver_config (mbtiles_files : List String) : TileserverConfig :=
  { root := ""
    mbtilesDir := "./" ++ MBTILES_DIR
    serveStaticMaps := true
    jpegQuality := 90
    webpQuality := 90
    maxSize := 8192
    pbfAlias := "pbf"
    data := mbtiles_files.foldl
      (fun d m => dictSet d (layerKey m) (basename m)) [] }

/-- Observable outcome of `HumidityProcessor.run_complete_pipeline`:
the result of each stage and every file written, in order.  When stage 1
returns `None` the pipeline prints a failure message and returns at once, so
all later fields stay empty. -/
structure PipelineRun where
  downloaded : Option (List RawRow)
  monthly_files : List ((Int × Int) × String × List MonthlyRow)
  geojson_files : List (String × List Feature)
  mbtiles_files : List String
  config : Option TileserverConfig
  files_written : List String
deriving DecidableEq, Repr

/-- `HumidityProcessor.run_complete_pipeline`. -/
def run_complete_pipeline (storeOk : Bool) (times : List Timestamp)
    (rows : List RawRow) (is_land : ℚ → ℚ → Bool)
    (tool : List String → ToolRun) : PipelineRun :=
  match download_humidity_data storeOk times rows with
  | none => ⟨none, [], [], [], none, []⟩
  | some df =>
    let monthly_files := split_monthly_data df
    let geojson_files :=
      create_geojsons is_land (monthly_files.map (fun e => (e.2.1, e.2.2)))
    let mbtiles_files := create_mbtiles tool (geojson_files.map (fun e => e.1))
    let config := create_tileserver_config mbtiles_files
    ⟨some df, monthly_files, geojson_files, mbtiles_files, some config,
      mainCsvName :: (monthly_files.map (fun e => e.2.1)
        ++ geojson_files.map (fun e => e.1) ++ mbtiles_files
        ++ ["humidity-tileserver-config.json", "humidity-viewer.html"])⟩

/-! ### Geometry predicates used to state the polygon invariants -/

/-- `p` lies on the closed segment from `a` to `b`. -/
def onSegment (p a b : ℚ × ℚ) : Prop :=
  ∃ t : ℚ, 0 ≤ t ∧ t ≤ 1 ∧ p.1 = a.1 + t * (b.1 - a.1) ∧ p.2 = a.2 + t * (b.2 - a.2)

/-- Non-self-intersection for the closed quadrilateral ring
`[p0, p1, p2, p3, p0]`: opposite edges are disjoint and adjacent edges meet
only in their shared vertex. -/
def simpleClosedQuad (p0 p1 p2 p3 : ℚ × ℚ) : Prop :=
  (∀ p, onSegment p p0 p1 → onSegment p p2 p3 → False) ∧
  (∀ p, onSegment p p1 p2 → onSegment p p3 p0 → False) ∧
  (∀ p, onSegment p p0 p1 → onSegment p p1 p2 → p = p1) ∧
  (∀ p, onSegment p p1 p2 → onSegment p p2 p3 → p = p2) ∧
  (∀ p, onSegment p p2 p3 → onSegment p p3 p0 → p = p3) ∧
  (∀ p, onSegment p p3 p0 → onSegment p p0 p1 → p = p0)

/-- Average of a vertex list: applied to the four distinct corners
(the closed ring without its repeated last vertex) it is the cell centroid. -/
def vertexCentroid (ps : List (ℚ × ℚ)) : ℚ × ℚ :=
  ((ps.map (fun p => p.1)).sum / (ps.length : ℚ),
   (ps.map (fun p => p.2)).sum / (ps.length : ℚ))

/-- Twice the signed area of a vertex ring (shoelace sum); positive exactly for
counterclockwise ring orientation. -/
def shoelaceSum : List (ℚ × ℚ) → ℚ
  | p :: q :: rest => (p.1 * q.2 - q.1 * p.2) + shoelaceSum (q :: rest)
  | _ => 0

/-! ### Helper lemmas -/

lemma sortedUnique_nodup (vals : List ℚ) : (sortedUnique vals).Nodup :=
  (List.perm_insertionSort _ _).nodup_iff.mpr vals.nodup_dedup

lemma sortedUnique_sorted (vals : List ℚ) :
    List.Sorted (· ≤ ·) (sortedUnique vals) :=
  List.sorted_insertionSort _ _

lemma mem_sortedUnique {x : ℚ} {vals : List ℚ} :
    x ∈ sortedUnique vals ↔ x ∈ vals := by
  unfold sortedUnique
  rw [(List.perm_insertionSort _ _).mem_iff, List.mem_dedup]

lemma gridRes_pos (vals : List ℚ) (fallback : ℚ) (hfb : 0 < fallback) :
    0 < gridRes vals fallback := by
  have hnd := sortedUnique_nodup vals
  rcases h : sortedUnique vals with _ | ⟨a, _ | ⟨b, rest⟩⟩
  · unfold gridRes
    rw [h]
    exact hfb
  · unfold gridRes
    rw [h]
    exact hfb
  · rw [h] at hnd
    have hab : a ≠ b := by
      intro he
      apply (List.nodup_cons.mp hnd).1
      rw [he]
      exact List.mem_cons_self b rest
    have : gridRes vals fallback = |b - a| := by
      unfold gridRes
      rw [h]
    rw [this]
    exact abs_pos.mpr (sub_ne_zero.mpr fun he => hab he.symm)

/-- Spacing inference characterised the way the spec words it: either at least
two distinct values exist and the result is the absolute difference of the two
smallest of them, or all values coincide and the result is the fallback. -/
lemma gridRes_spec (vals : List ℚ) (fallback : ℚ) :
    (∃ a b, a ∈ vals ∧ b ∈ vals ∧ a < b ∧ (∀ c ∈ vals, a ≤ c) ∧
        (∀ c ∈ vals, c ≠ a → b ≤ c) ∧ gridRes vals fallback = |b - a|) ∨
      ((∀ x ∈ vals, ∀ y ∈ vals, x = y) ∧ gridRes vals fallback = fallback) := by
  have hnd := sortedUnique_nodup vals
  have hsort := sortedUnique_sorted vals
  rcases h : sortedUnique vals with _ | ⟨a, _ | ⟨b, rest⟩⟩
  · right
    refine ⟨fun x hx => ?_, by unfold gridRes; rw [h]⟩
    have hx' : x ∈ sortedUnique vals := mem_sortedUnique.mpr hx
    rw [h] at hx'
    exact absurd hx' (List.not_mem_nil x)
  · right
    refine ⟨fun x hx y hy => ?_, by unfold gridRes; rw [h]⟩
    have hx' : x ∈ sortedUnique vals := mem_sortedUnique.mpr hx
    have hy' : y ∈ sortedUnique vals := mem_sortedUnique.mpr hy
    rw [h] at hx' hy'
    rw [List.mem_singleton.mp hx', List.mem_singleton.mp hy']
  · left
    rw [h] at hnd hsort
    have hmem : ∀ c ∈ vals, c ∈ a :: b :: rest := by
      intro c hc
      have := mem_sortedUnique.mpr hc
      rwa [h] at this
    have hab : a < b := by
      refine lt_of_le_of_ne (List.rel_of_sorted_cons hsort b (List.mem_cons_self b rest)) ?_
      intro he
      apply (List.nodup_cons.mp hnd).1
      rw [he]
      exact List.mem_cons_self b rest
    refine ⟨a, b, ?_, ?_, hab, ?_, ?_, by unfold gridRes; rw [h]⟩
    · exact mem_sortedUnique.mp (by rw [h]; exact List.mem_cons_self a (b :: rest))
    · exact mem_sortedUnique.mp
        (by rw [h]; exact List.mem_cons_of_mem a (List.mem_cons_self b rest))
    · intro c hc
      rcases List.mem_cons.mp (hmem c hc) with hca | hcr
      · exact le_of_eq hca.symm
      · exact List.rel_of_sorted_cons hsort c hcr
    · intro c hc hca
      rcases List.mem_cons.mp (hmem c hc) with h1 | h1
      · exact absurd h1 hca
      · rcases List.mem_cons.mp h1 with h2 | h2
        · exact le_of_eq h2.symm
        · exact List.rel_of_sorted_cons hsort.of_cons c h2

lemma onSegment_horiz {p : ℚ × ℚ} {x1 x2 y : ℚ}
    (h : onSegment p (x1, y) (x2, y)) : p.2 = y := by
  obtain ⟨t, _, _, _, hy⟩ := h
  simpa using hy

lemma onSegment_vert {p : ℚ × ℚ} {x y1 y2 : ℚ}
    (h : onSegment p (x, y1) (x, y2)) : p.1 = x := by
  obtain ⟨t, _, _, hx, _⟩ := h
  simpa using hx

/-- An axis-aligned rectangle ring of positive width and height is
non-self-intersecting. -/
lemma rect_simpleClosedQuad (lon lat hl ha : ℚ) (hhl : 0 < hl) (hha : 0 < ha) :
    simpleClosedQuad (lon - hl, lat - ha) (lon + hl, lat - ha)
      (lon + hl, lat + ha) (lon - hl, lat + ha) := by
  refine ⟨?_, ?_, ?_, ?_, ?_, ?_⟩
  · intro p h1 h2
    have e1 := onSegment_horiz h1
    have e2 := onSegment_horiz h2
    linarith
  · intro p h1 h2
    have e1 := onSegment_vert h1
    have e2 := onSegment_vert h2
    linarith
  · intro p h1 h2
    have e1 := onSegment_horiz h1
    have e2 := onSegment_vert h2
    exact Prod.ext e2 e1
  · intro p h1 h2
    have e1 := onSegment_vert h1
    have e2 := onSegment_horiz h2
    exact Prod.ext e1 e2
  · intro p h1 h2
    have e1 := onSegment_horiz h1
    have e2 := onSegment_vert h2
    exact Prod.ext e2 e1
  · intro p h1 h2
    have e1 := onSegment_vert h1
    have e2 := onSegment_horiz h2
    exact Prod.ext e1 e2

lemma cellRing_centroid (lon lat hl ha : ℚ) :
    vertexCentroid (cellRing lon lat hl ha).dropLast = (lon, lat) := by
  unfold cellRing vertexCentroid
  norm_num
  constructor <;> ring

lemma cellRing_shoelace (lon lat hl ha : ℚ) :
    shoelaceSum (cellRing lon lat hl ha) = 8 * hl * ha := by
  simp [cellRing, shoelaceSum]
  ring

lemma length_filterMap_eq_length_filter {α β γ : Type*} (g : α → Option β)
    (f : α → β → γ) (l : List α) :
    (l.filterMap (fun r => (g r).map (f r))).length =
      (l.filter (fun r => (g r).isSome)).length := by
  induction l with
  | nil => rfl
  | cons a l ih =>
    cases h : g a <;> simp [List.filterMap_cons, List.filter_cons, h, ih]

/-- Grouping a list by a nodup list of keys covering every element and
concatenating the groups permutes the original list: no element leaks into
another group and none is duplicated. -/
lemma flatten_filter_partition {α K : Type*} [DecidableEq K] (key : α → K) :
    ∀ (ks : List K) (l : List α), ks.Nodup → (∀ a ∈ l, key a ∈ ks) →
      List.Perm ((ks.map (fun k => l.filter (fun a => decide (key a = k)))).flatten) l := by
  intro ks
  induction ks with
  | nil =>
    intro l _ hall
    have : l = [] := List.eq_nil_iff_forall_not_mem.mpr
      fun a ha => List.not_mem_nil (key a) (hall a ha)
    simp [this]
  | cons k ks ih =>
    intro l hnd hall
    have hknotin : k ∉ ks := (List.nodup_cons.mp hnd).1
    have hstep : ∀ k' ∈ ks, l.filter (fun a => decide (key a = k')) =
        (l.filter (fun a => !decide (key a = k))).filter
          (fun a => decide (key a = k')) := by
      intro k' hk'
      rw [List.filter_filter]
      apply List.filter_congr
      intro a _
      have hne : ¬k' = k := fun he => hknotin (he ▸ hk')
      by_cases hc : key a = k'
      · simp [hc, hne]
      · simp [hc]
    have e1 : (((k :: ks).map (fun k => l.filter (fun a => decide (key a = k)))).flatten)
        = l.filter (fun a => decide (key a = k)) ++
            (ks.map (fun k' => (l.filter (fun a => !decide (key a = k))).filter
              (fun a => decide (key a = k')))).flatten := by
      simp only [List.map_cons, List.flatten_cons]
      rw [List.map_congr_left hstep]
    rw [e1]
    refine List.Perm.trans
      (List.Perm.append_left _ (ih _ (List.Nodup.of_cons hnd) ?_))
      (List.filter_append_perm _ l)
    intro a ha
    have ha' := List.mem_filter.mp ha
    rcases List.mem_cons.mp (hall a ha'.1) with h1 | h1
    · exact absurd (decide_eq_true_iff.mpr h1) (by simpa using ha'.2)
    · exact h1

lemma keyLE_and_ne_imp_keyLT {a b : Int × Int} (h1 : keyLE a b) (h2 : a ≠ b) :
    keyLT a b := by
  rcases a with ⟨a1, a2⟩
  rcases b with ⟨b1, b2⟩
  simp only [keyLE, keyLT, ne_eq, Prod.mk.injEq, not_and] at *
  omega


lemma csv_to_geojson_eq_some {is_land : ℚ → ℚ → Bool} {df : List MonthlyRow}
    {feats : List Feature}
    (h : csv_to_geojson is_land df = some feats) :
    df.filter (fun r => is_land r.lat r.lon) ≠ [] ∧
    feats = (df.filter (fun r => is_land r.lat r.lon)).filterMap
      (fun r => r.RH2M.map (gridCellFeature
        (gridRes ((df.filter (fun r => is_land r.lat r.lon)).map (fun r => r.lat)) (1/2))
        (gridRes ((df.filter (fun r => is_land r.lat r.lon)).map (fun r => r.lon)) (5/8)) r)) := by
  unfold csv_to_geojson at h
  by_cases h1 : df.isEmpty
  · simp [h1] at h
  · by_cases h2 : (df.filter (fun r => is_land r.lat r.lon)).isEmpty
    · simp [h1, h2] at h
    · refine ⟨by simpa [List.isEmpty_iff] using h2, ?_⟩
      simp only [h1, h2, if_false, Bool.false_eq_true, Option.some.injEq] at h
      exact h.symm

/-- C1: for every row of a monthly table that passes the land predicate and has
a non-missing humidity value, `csv_to_geojson` emits exactly one feature: a
closed 5-vertex rectangular ring with vertices at
`(lon +- lon_res/2, lat +- lat_res/2)`, vertex centroid exactly `(lon, lat)`,
non-self-intersecting, tagged with the source humidity value and timestamp;
rows with a missing value emit no feature. -/
theorem csv_to_geojson_gridcell_correct (is_land : ℚ → ℚ → Bool)
    (df df_land : List MonthlyRow) (lat_res lon_res : ℚ) (feats : List Feature)
    (hland : df_land = df.filter (fun r => is_land r.lat r.lon))
    (hlat : lat_res = gridRes (df_land.map (fun r => r.lat)) (1/2))
    (hlon : lon_res = gridRes (df_land.map (fun r => r.lon)) (5/8))
    (hrun : csv_to_geojson is_land df = some feats) :
    feats.length = (df_land.filter (fun r => r.RH2M.isSome)).length ∧
    (∀ r ∈ df_land, ∀ h : ℚ, r.RH2M = some h →
        gridCellFeature lat_res lon_res r h ∈ feats) ∧
    (∀ f ∈ feats,
      (∃ r ∈ df_land, r.RH2M = some f.humidity ∧ f.time = r.time ∧
          f.lat = r.lat ∧ f.lon = r.lon) ∧
      f.coordinates =
        [(f.lon - lon_res / 2, f.lat - lat_res / 2),
         (f.lon + lon_res / 2, f.lat - lat_res / 2),
         (f.lon + lon_res / 2, f.lat + lat_res / 2),
         (f.lon - lon_res / 2, f.lat + lat_res / 2),
         (f.lon - lon_res / 2, f.lat - lat_res / 2)] ∧
      f.coordinates.length = 5 ∧
      f.coordinates.head? = f.coordinates.getLast? ∧
      vertexCentroid f.coordinates.dropLast = (f.lon, f.lat) ∧
      simpleClosedQuad (f.lon - lon_res / 2, f.lat - lat_res / 2)
        (f.lon + lon_res / 2, f.lat - lat_res / 2)
        (f.lon + lon_res / 2, f.lat + lat_res / 2)
        (f.lon - lon_res / 2, f.lat + lat_res / 2)) := by
  obtain ⟨hne, hfeq⟩ := csv_to_geojson_eq_some hrun
  subst hland
  rw [← hlat, ← hlon] at hfeq
  subst hfeq
  refine ⟨length_filterMap_eq_length_filter _ _ _, ?_, ?_⟩
  · intro r hr h hRH
    exact List.mem_filterMap.mpr ⟨r, hr, by rw [hRH]; rfl⟩
  · intro f hf
    obtain ⟨r, hr, hmap⟩ := List.mem_filterMap.mp hf
    obtain ⟨h, hRH, hgf⟩ := Option.map_eq_some'.mp hmap
    subst hgf
    have hlatpos : 0 < lat_res := hlat ▸ gridRes_pos _ _ (by norm_num)
    have hlonpos : 0 < lon_res := hlon ▸ gridRes_pos _ _ (by norm_num)
    refine ⟨⟨r, hr, by rw [hRH]; rfl, rfl, rfl, rfl⟩, rfl, rfl, rfl, ?_, ?_⟩
    · exact cellRing_centroid r.lon r.lat (lon_res / 2) (lat_res / 2)
    · exact rect_simpleClosedQuad r.lon r.lat (lon_res / 2) (lat_res / 2)
        (half_pos hlonpos) (half_pos hlatpos)

/-- C2: the inferred latitude spacing is the absolute difference of the two
smallest distinct latitudes of the land-surviving rows when at least two
distinct latitudes exist, and 0.5 otherwise; longitude likewise with default
0.625 (= 5/8); one `(lat_res, lon_res)` pair is used for every emitted cell of
the month. -/
theorem gridRes_two_smallest_distinct (is_land : ℚ → ℚ → Bool)
    (df df_land : List MonthlyRow) (lat_res lon_res : ℚ) (feats : List Feature)
    (hland : df_land = df.filter (fun r => is_land r.lat r.lon))
    (hlat : lat_res = gridRes (df_land.map (fun r => r.lat)) (1/2))
    (hlon : lon_res = gridRes (df_land.map (fun r => r.lon)) (5/8))
    (hrun : csv_to_geojson is_land df = some feats) :
    ((∃ a b, a ∈ df_land.map (fun r => r.lat) ∧ b ∈ df_land.map (fun r => r.lat) ∧
        a < b ∧ (∀ c ∈ df_land.map (fun r => r.lat), a ≤ c) ∧
        (∀ c ∈ df_land.map (fun r => r.lat), c ≠ a → b ≤ c) ∧ lat_res = |b - a|) ∨
      ((∀ x ∈ df_land.map (fun r => r.lat), ∀ y ∈ df_land.map (fun r => r.lat), x = y) ∧
        lat_res = 1/2)) ∧
    ((∃ a b, a ∈ df_land.map (fun r => r.lon) ∧ b ∈ df_land.map (fun r => r.lon) ∧
        a < b ∧ (∀ c ∈ df_land.map (fun r => r.lon), a ≤ c) ∧
        (∀ c ∈ df_land.map (fun r => r.lon), c ≠ a → b ≤ c) ∧ lon_res = |b - a|) ∨
      ((∀ x ∈ df_land.map (fun r => r.lon), ∀ y ∈ df_land.map (fun r => r.lon), x = y) ∧
        lon_res = 5/8)) ∧
    (∀ f ∈ feats, f.coordinates = cellRing f.lon f.lat (lon_res / 2) (lat_res / 2)) := by
  obtain ⟨hne, hfeq⟩ := csv_to_geojson_eq_some hrun
  subst hland
  rw [← hlat, ← hlon] at hfeq
  subst hfeq
  refine ⟨?_, ?_, ?_⟩
  · rcases gridRes_spec ((df.filter (fun r => is_land r.lat r.lon)).map (fun r => r.lat)) (1/2)
      with ⟨a, b, h1, h2, h3, h4, h5, h6⟩ | ⟨hall, h6⟩
    · exact Or.inl ⟨a, b, h1, h2, h3, h4, h5, hlat.trans h6⟩
    · exact Or.inr ⟨hall, hlat.trans h6⟩
  · rcases gridRes_spec ((df.filter (fun r => is_land r.lat r.lon)).map (fun r => r.lon)) (5/8)
      with ⟨a, b, h1, h2, h3, h4, h5, h6⟩ | ⟨hall, h6⟩
    · exact Or.inl ⟨a, b, h1, h2, h3, h4, h5, hlon.trans h6⟩
    · exact Or.inr ⟨hall, hlon.trans h6⟩
  · intro f hf
    obtain ⟨r, hr, hmap⟩ := List.mem_filterMap.mp hf
    obtain ⟨h, hRH, hgf⟩ := Option.map_eq_some'.mp hmap
    subst hgf
    rfl

/-- C10: every emitted grid-cell ring is traversed SW, SE, NE, NW, SW, and
since both inferred spacings are positive its shoelace sum (twice the signed
area) equals `2 * lon_res * lat_res > 0`, i.e. the ring is a non-degenerate
counterclockwise rectangle. -/
theorem gridcell_ring_ccw (is_land : ℚ → ℚ → Bool)
    (df df_land : List MonthlyRow) (lat_res lon_res : ℚ) (feats : List Feature)
    (hland : df_land = df.filter (fun r => is_land r.lat r.lon))
    (hlat : lat_res = gridRes (df_land.map (fun r => r.lat)) (1/2))
    (hlon : lon_res = gridRes (df_land.map (fun r => r.lon)) (5/8))
    (hrun : csv_to_geojson is_land df = some feats) :
    0 < lat_res ∧ 0 < lon_res ∧
    ∀ f ∈ feats,
      f.coordinates = cellRing f.lon f.lat (lon_res / 2) (lat_res / 2) ∧
      shoelaceSum f.coordinates = 2 * lon_res * lat_res ∧
      0 < shoelaceSum f.coordinates := by
  obtain ⟨hne, hfeq⟩ := csv_to_geojson_eq_some hrun
  subst hland
  rw [← hlat, ← hlon] at hfeq
  subst hfeq
  have hlatpos : 0 < lat_res := hlat ▸ gridRes_pos _ _ (by norm_num)
  have hlonpos : 0 < lon_res := hlon ▸ gridRes_pos _ _ (by norm_num)
  refine ⟨hlatpos, hlonpos, ?_⟩
  intro f hf
  obtain ⟨r, hr, hmap⟩ := List.mem_filterMap.mp hf
  obtain ⟨h, hRH, hgf⟩ := Option.map_eq_some'.mp hmap
  subst hgf
  have hsh : shoelaceSum (gridCellFeature lat_res lon_res r h).coordinates =
      2 * lon_res * lat_res := by
    have := cellRing_shoelace r.lon r.lat (lon_res / 2) (lat_res / 2)
    calc shoelaceSum (gridCellFeature lat_res lon_res r h).coordinates
        = 8 * (lon_res / 2) * (lat_res / 2) := this
      _ = 2 * lon_res * lat_res := by ring
  refine ⟨rfl, hsh, ?_⟩
  rw [hsh]
  have := mul_pos (mul_pos (by norm_num : (0:ℚ) < 2) hlonpos) hlatpos
  exact this

/-- The partitioner, rewritten over the grouping key of the original rows. -/
lemma split_monthly_data_eq (df : List RawRow) :
    split_monthly_data df =
      (List.insertionSort keyLE ((df.map rowKey).dedup)).map (fun k =>
        (k, monthlyFilename k,
          (df.filter (fun r => decide (rowKey r = k))).map
            (fun r => selectColumns (augmentRow r)))) := by
  have hinner : (df.map augmentRow).map (fun a => (a.year, a.month)) = df.map rowKey := by
    rw [List.map_map]
    rfl
  have hgroup : ∀ k : Int × Int,
      ((df.map augmentRow).filter (fun a => decide ((a.year, a.month) = k))).map selectColumns
        = (df.filter (fun r => decide (rowKey r = k))).map
            (fun r => selectColumns (augmentRow r)) := by
    intro k
    rw [List.filter_map, List.map_map]
    rfl
  show (List.insertionSort keyLE
      (((df.map augmentRow).map (fun a => (a.year, a.month))).dedup)).map (fun k =>
        (k, monthlyFilename k,
          ((df.map augmentRow).filter (fun a => decide ((a.year, a.month) = k))).map
            selectColumns)) = _
  rw [hinner]
  exact List.map_congr_left fun k _ => by rw [hgroup k]

lemma mem_sortedKeys (df : List RawRow) (k : Int × Int) :
    k ∈ List.insertionSort keyLE ((df.map rowKey).dedup) ↔ ∃ r ∈ df, rowKey r = k := by
  rw [(List.perm_insertionSort _ _).mem_iff, List.mem_dedup, List.mem_map]

/-- C3: the produced `(year, month)` keys are exactly the distinct keys of the
input rows, each monthly table holds exactly the rows of its month (the
concatenation of all tables is a permutation of the input), the empty table
yields zero outputs, and the produced list is strictly ascending in
`(year, month)`. -/
theorem split_monthly_data_partition (df : List RawRow) :
    split_monthly_data ([] : List RawRow) = [] ∧
    (∀ k : Int × Int, (∃ e ∈ split_monthly_data df, e.1 = k) ↔ ∃ r ∈ df, rowKey r = k) ∧
    ((split_monthly_data df).map (fun e => e.1)).Nodup ∧
    List.Pairwise keyLT ((split_monthly_data df).map (fun e => e.1)) ∧
    (∀ e ∈ split_monthly_data df,
      e.2.2 = (df.filter (fun r => decide (rowKey r = e.1))).map
        (fun r => selectColumns (augmentRow r))) ∧
    List.Perm (((split_monthly_data df).map (fun e => e.2.2)).flatten)
      (df.map (fun r => selectColumns (augmentRow r))) := by
  have hsplit := split_monthly_data_eq df
  have hmapfst : (split_monthly_data df).map (fun e => e.1) =
      List.insertionSort keyLE ((df.map rowKey).dedup) := by
    rw [hsplit, List.map_map]
    exact List.map_id _
  have hnd : (List.insertionSort keyLE ((df.map rowKey).dedup)).Nodup :=
    (List.perm_insertionSort _ _).nodup_iff.mpr (List.nodup_dedup _)
  refine ⟨rfl, ?_, ?_, ?_, ?_, ?_⟩
  · intro k
    constructor
    · rintro ⟨e, he, hek⟩
      subst hek
      rw [hsplit] at he
      obtain ⟨k', hk', rfl⟩ := List.mem_map.mp he
      exact (mem_sortedKeys df k').mp hk'
    · intro hr
      have hk := (mem_sortedKeys df k).mpr hr
      rw [hsplit]
      exact ⟨_, List.mem_map_of_mem _ hk, rfl⟩
  · rw [hmapfst]
    exact hnd
  · rw [hmapfst]
    exact (List.Pairwise.and (List.sorted_insertionSort keyLE _) hnd).imp
      fun hab => keyLE_and_ne_imp_keyLT hab.1 hab.2
  · intro e he
    rw [hsplit] at he
    obtain ⟨k, hk, rfl⟩ := List.mem_map.mp he
    rfl
  · have hcov : ∀ r ∈ df, rowKey r ∈ List.insertionSort keyLE ((df.map rowKey).dedup) :=
      fun r hr => (mem_sortedKeys df (rowKey r)).mpr ⟨r, hr, rfl⟩
    have hperm := (flatten_filter_partition rowKey
      (List.insertionSort keyLE ((df.map rowKey).dedup)) df hnd hcov).map
      (fun r => selectColumns (augmentRow r))
    have heq : ((List.insertionSort keyLE ((df.map rowKey).dedup)).map
        (fun k => (df.filter (fun r => decide (rowKey r = k))).map
          (fun r => selectColumns (augmentRow r)))).flatten =
        (((List.insertionSort keyLE ((df.map rowKey).dedup)).map
          (fun k => df.filter (fun r => decide (rowKey r = k)))).flatten).map
          (fun r => selectColumns (augmentRow r)) := by
      rw [List.map_flatten, List.map_map]
      rfl
    rw [hsplit, List.map_map]
    rw [← heq] at hperm
    exact hperm

/-- C9: the partitioner changes no sample field: the four-column projection of
an augmented row restores exactly the original `time`, `lat`, `lon`, `value`,
and every row of every monthly table is such a projection of an input row with
all four fields unchanged. -/
theorem partition_preserves_samples (df : List RawRow) :
    (∀ r : RawRow, selectColumns (augmentRow r) = ⟨r.time, r.lat, r.lon, r.value⟩) ∧
    (∀ e ∈ split_monthly_data df, ∀ m ∈ e.2.2, ∃ r ∈ df,
      m = selectColumns (augmentRow r) ∧ m.time = r.time ∧ m.lat = r.lat ∧
      m.lon = r.lon ∧ m.RH2M = r.value) := by
  refine ⟨fun r => rfl, ?_⟩
  intro e he m hm
  rw [split_monthly_data_eq df] at he
  obtain ⟨k, hk, rfl⟩ := List.mem_map.mp he
  obtain ⟨r, hrf, rfl⟩ := List.mem_map.mp hm
  exact ⟨r, (List.mem_filter.mp hrf).1, rfl, rfl, rfl, rfl, rfl⟩

/-- C4: a monthly table in which zero rows survive the land filter (in
particular an empty table) produces no geometry document, contributes no tile
archive and no config entry downstream, and the surrounding months are
processed exactly as if the month were absent. -/
theorem zero_land_month_skipped (is_land : ℚ → ℚ → Bool)
    (tool : List String → ToolRun) (name : String) (rows : List MonthlyRow)
    (xs ys : List (String × List MonthlyRow))
    (hzero : rows.filter (fun r => is_land r.lat r.lon) = []) :
    csv_to_geojson is_land rows = none ∧
    create_geojsons is_land (xs ++ (name, rows) :: ys) =
      create_geojsons is_land (xs ++ ys) ∧
    create_mbtiles tool
        ((create_geojsons is_land (xs ++ (name, rows) :: ys)).map (fun e => e.1)) =
      create_mbtiles tool ((create_geojsons is_land (xs ++ ys)).map (fun e => e.1)) ∧
    create_tileserver_config (create_mbtiles tool
        ((create_geojsons is_land (xs ++ (name, rows) :: ys)).map (fun e => e.1))) =
      create_tileserver_config (create_mbtiles tool
        ((create_geojsons is_land (xs ++ ys)).map (fun e => e.1))) := by
  have hnone : csv_to_geojson is_land rows = none := by
    unfold csv_to_geojson
    by_cases h1 : rows.isEmpty
    · simp [h1]
    · simp [h1, hzero]
  have h2 : create_geojsons is_land (xs ++ (name, rows) :: ys) =
      create_geojsons is_land (xs ++ ys) := by
    unfold create_geojsons
    rw [List.filterMap_append, List.filterMap_append, List.filterMap_cons]
    simp [hnone]
  exact ⟨hnone, h2, by rw [h2], by rw [h2]⟩

/-- C5: the adapter invokes the external tool with exactly the fixed argument
list, succeeds iff the tool exits 0, on non-zero exit reports failure together
with the tool diagnostic stream, and a failing document is skipped while the
batch over the remaining documents continues unchanged. -/
theorem tippecanoe_adapter_contract (tool : List String → ToolRun)
    (g m : String) (xs ys : List String)
    (hfail : (tool (tippecanoe_cmd g (MBTILES_DIR ++ "/" ++
        pyReplace (basename g) "_land.geojson" "" ++ "_land.mbtiles"))).exitCode ≠ 0) :
    tippecanoe_cmd g m =
      ["tippecanoe", "-o", m, "-z", "10", "-Z", "0", "--no-feature-limit",
       "--no-tile-size-limit", "-B0", "--drop-densest-as-needed",
       "--extend-zooms-if-still-dropping", "--force", g] ∧
    ((geojson_to_mbtiles_tippecanoe tool g m).1 = true ↔
      (tool (tippecanoe_cmd g m)).exitCode = 0) ∧
    ((tool (tippecanoe_cmd g m)).exitCode ≠ 0 →
      geojson_to_mbtiles_tippecanoe tool g m =
        (false, some (tool (tippecanoe_cmd g m)).diagnostics)) ∧
    create_mbtiles tool (xs ++ g :: ys) =
      create_mbtiles tool xs ++ create_mbtiles tool ys := by
  refine ⟨rfl, ?_, ?_, ?_⟩
  · unfold geojson_to_mbtiles_tippecanoe
    by_cases h : (tool (tippecanoe_cmd g m)).exitCode = 0 <;> simp [h]
  · intro h
    unfold geojson_to_mbtiles_tippecanoe
    simp [h]
  · unfold create_mbtiles
    rw [List.filterMap_append, List.filterMap_cons]
    have hgone : (geojson_to_mbtiles_tippecanoe tool g (MBTILES_DIR ++ "/" ++
        pyReplace (basename g) "_land.geojson" "" ++ "_land.mbtiles")).1 = false := by
      unfold geojson_to_mbtiles_tippecanoe
      simp [hfail]
    simp [hgone]

/-- C6: when the store cannot be opened or no timestamp matches the requested
range, stage 1 fails (the `DataSourceError` outcome, embedded as `none`), the
pipeline returns immediately after stage 1, no later stage runs and no file is
written. -/
theorem fetch_failure_aborts (storeOk : Bool) (times : List Timestamp)
    (rows : List RawRow) (is_land : ℚ → ℚ → Bool) (tool : List String → ToolRun)
    (hfail : storeOk = false ∨ times.filter time_filter = []) :
    download_humidity_data storeOk times rows = none ∧
    run_complete_pipeline storeOk times rows is_land tool =
      ⟨none, [], [], [], none, []⟩ := by
  have hdl : download_humidity_data storeOk times rows = none := by
    unfold download_humidity_data
    rcases hfail with h | h
    · simp [h]
    · simp [h]
  refine ⟨hdl, ?_⟩
  unfold run_complete_pipeline
  rw [hdl]

/-- Modelled from the spec: a timestamp's `(year, month)` lies in the inclusive
range [2022-01, 2025-05], in lexicographic order. -/
def monthInInclusiveRange (t : Timestamp) : Prop :=
  (2022 < t.year ∨ (t.year = 2022 ∧ 1 ≤ t.month)) ∧
  (t.year < 2025 ∨ (t.year = 2025 ∧ t.month ≤ 5))

/-- C8: on success the fetched table contains a row exactly when its timestamp
is in the store and its `(year, month)` passes the range filter (equivalent to
the inclusive range [2022-01, 2025-05] for real months `1 ≤ month`) and its
value is present; every row with a missing value is removed before the table
is persisted and returned. -/
theorem fetch_restricts_range_and_drops_missing (storeOk : Bool)
    (times : List Timestamp) (rows : List RawRow) (df : List RawRow)
    (hsome : download_humidity_data storeOk times rows = some df) :
    (∀ r : RawRow, r ∈ df ↔
      (r ∈ rows ∧ r.time ∈ times ∧ time_filter r.time = true ∧ r.value.isSome = true)) ∧
    (∀ t : Timestamp, 1 ≤ t.month → (time_filter t = true ↔ monthInInclusiveRange t)) ∧
    (∀ r ∈ df, r.value.isSome = true) := by
  have hdf : df = rows.filter
      (fun r => r.value.isSome && (decide (r.time ∈ times) && time_filter r.time)) := by
    unfold download_humidity_data at hsome
    cases storeOk with
    | false => simp at hsome
    | true =>
      by_cases h2 : (times.filter time_filter).isEmpty
      · simp [h2] at hsome
      · simp [h2] at hsome
        exact hsome.symm
  subst hdf
  refine ⟨?_, ?_, fun r hr => by
    have := (List.mem_filter.mp hr).2
    simp only [Bool.and_eq_true] at this
    exact this.1⟩
  · intro r
    simp only [List.mem_filter, Bool.and_eq_true, decide_eq_true_eq]
    tauto
  · intro t ht
    unfold time_filter monthInInclusiveRange
    simp only [Bool.and_eq_true, Bool.or_eq_true, decide_eq_true_eq, gt_iff_lt, ge_iff_le]
    omega

lemma data_getElem8_append (s t : String) {c : Char} (h8 : s.data[8]? = some c) :
    (s ++ t).data[8]? = some c := by
  obtain ⟨hlt, _⟩ := List.getElem?_eq_some_iff.mp h8
  rw [String.data_append, List.getElem?_append_left hlt]
  exact h8

lemma ne_of_data8 {s t : String} {c d : Char} (hs : s.data[8]? = some c)
    (ht : t.data[8]? = some d) (hcd : c ≠ d) : s ≠ t := by
  intro h
  rw [h] at hs
  exact hcd (Option.some.inj (hs.symm.trans ht))

lemma configName_data8 :
    ("humidity-tileserver-config.json" : String).data[8]? = some '-' := by decide

lemma outputDir_data8 : OUTPUT_DIR.data[8]? = some '_' := by decide

lemma mbtilesDir_data8 : MBTILES_DIR.data[8]? = some '_' := by decide

lemma monthlyFilename_ne_config (k : Int × Int) :
    monthlyFilename k ≠ "humidity-tileserver-config.json" := by
  refine ne_of_data8 (c := '_') (d := '-') ?_ configName_data8 (by decide)
  unfold monthlyFilename
  exact data_getElem8_append _ _ (data_getElem8_append _ _ (data_getElem8_append _ _
    (data_getElem8_append _ _ outputDir_data8)))

lemma geojson_name_ne_config (b : String) :
    OUTPUT_DIR ++ "/" ++ b ++ "_land.geojson" ≠ "humidity-tileserver-config.json" := by
  refine ne_of_data8 (c := '_') (d := '-') ?_ configName_data8 (by decide)
  exact data_getElem8_append _ _ (data_getElem8_append _ _
    (data_getElem8_append _ _ outputDir_data8))

lemma mbtiles_name_ne_config (b : String) :
    MBTILES_DIR ++ "/" ++ b ++ "_land.mbtiles" ≠ "humidity-tileserver-config.json" := by
  refine ne_of_data8 (c := '_') (d := '-') ?_ configName_data8 (by decide)
  exact data_getElem8_append _ _ (data_getElem8_append _ _
    (data_getElem8_append _ _ mbtilesDir_data8))

lemma count_config_monthly (df : List RawRow) :
    (((split_monthly_data df).map (fun e => e.2.1)).count
      "humidity-tileserver-config.json") = 0 := by
  rw [List.count_eq_zero]
  intro hmem
  obtain ⟨e, he, h1⟩ := List.mem_map.mp hmem
  rw [split_monthly_data_eq] at he
  obtain ⟨k, hk, rfl⟩ := List.mem_map.mp he
  exact monthlyFilename_ne_config k h1

lemma count_config_geojsons (il : ℚ → ℚ → Bool)
    (mfs : List (String × List MonthlyRow)) :
    (((create_geojsons il mfs).map (fun e => e.1)).count
      "humidity-tileserver-config.json") = 0 := by
  rw [List.count_eq_zero]
  intro hmem
  obtain ⟨p, hp, hp1⟩ := List.mem_map.mp hmem
  obtain ⟨mf, hmf, heq⟩ := List.mem_filterMap.mp hp
  revert heq
  cases h : csv_to_geojson il mf.2 with
  | none => simp [create_geojsons, h]
  | some feats =>
    intro heq
    simp only [h] at heq
    obtain rfl := Option.some.inj heq
    exact geojson_name_ne_config _ hp1

lemma count_config_mbtiles (tool : List String → ToolRun) (gfs : List String) :
    ((create_mbtiles tool gfs).count "humidity-tileserver-config.json") = 0 := by
  rw [List.count_eq_zero]
  intro hmem
  obtain ⟨g, hg, heq⟩ := List.mem_filterMap.mp hmem
  revert heq
  by_cases h : (geojson_to_mbtiles_tippecanoe tool g (MBTILES_DIR ++ "/" ++
      pyReplace (basename g) "_land.geojson" "" ++ "_land.mbtiles")).1
  · intro heq
    simp only [h, if_true] at heq
    exact mbtiles_name_ne_config _ (Option.some.inj heq)
  · intro heq
    simp [h] at heq

lemma foldl_dictSet_eq_append (files : List String) :
    ∀ acc : List (String × String),
      (files.map layerKey).Nodup →
      (∀ f ∈ files, layerKey f ∉ acc.map (fun e => e.1)) →
      files.foldl (fun d m => dictSet d (layerKey m) (basename m)) acc =
        acc ++ files.map (fun m => (layerKey m, basename m)) := by
  induction files with
  | nil =>
    intro acc _ _
    simp
  | cons f fs ih =>
    intro acc hnd hnotin
    have hnd' : layerKey f ∉ fs.map layerKey ∧ (fs.map layerKey).Nodup := by
      rw [List.map_cons, List.nodup_cons] at hnd
      exact hnd
    have hno : ¬ acc.any (fun e => e.1 == layerKey f) = true := by
      rw [List.any_eq_true]
      rintro ⟨e, he, hbeq⟩
      exact hnotin f (List.mem_cons_self f fs)
        (List.mem_map.mpr ⟨e, he, beq_iff_eq.mp hbeq⟩)
    have h1 : dictSet acc (layerKey f) (basename f) =
        acc ++ [(layerKey f, basename f)] := by
      unfold dictSet
      rw [if_neg hno]
    simp only [List.foldl_cons, List.map_cons]
    rw [h1, ih (acc ++ [(layerKey f, basename f)]) hnd'.2 ?_]
    · simp
    · intro f' hf'
      rw [List.map_append, List.mem_append]
      rintro (h | h)
      · exact hnotin f' (List.mem_cons_of_mem f hf') h
      · simp only [List.map_cons, List.map_nil, List.mem_singleton] at h
        exact hnd'.1 (h ▸ List.mem_map_of_mem layerKey hf')

/-- C7: the tileserver configuration holds exactly one data entry per built
archive, keyed by the name derived from the archive base name with the
`_land` suffix, so the key list equals the derived keys of the archive list
and is duplicate-free; the document is a pure function of the archive list and
the pipeline writes it exactly once. -/
theorem tileserver_config_one_entry_per_archive (mbtiles_files : List String)
    (hnd : (mbtiles_files.map layerKey).Nodup) :
    (create_tileserver_config mbtiles_files).data =
      mbtiles_files.map (fun m => (layerKey m, basename m)) ∧
    ((create_tileserver_config mbtiles_files).data.map (fun e => e.1) =
      mbtiles_files.map layerKey) ∧
    ((create_tileserver_config mbtiles_files).data.map (fun e => e.1)).Nodup ∧
    (∀ storeOk times rows il tool df,
      download_humidity_data storeOk times rows = some df →
      (run_complete_pipeline storeOk times rows il tool).config =
        some (create_tileserver_config
          (run_complete_pipeline storeOk times rows il tool).mbtiles_files) ∧
      ((run_complete_pipeline storeOk times rows il tool).files_written.count
        "humidity-tileserver-config.json") = 1) := by
  have hdata : (create_tileserver_config mbtiles_files).data =
      mbtiles_files.map (fun m => (layerKey m, basename m)) := by
    show mbtiles_files.foldl (fun d m => dictSet d (layerKey m) (basename m)) [] = _
    rw [foldl_dictSet_eq_append mbtiles_files [] hnd (by simp)]
    simp
  have hkeys : (create_tileserver_config mbtiles_files).data.map (fun e => e.1) =
      mbtiles_files.map layerKey := by
    rw [hdata, List.map_map]
    rfl
  refine ⟨hdata, hkeys, by rw [hkeys]; exact hnd, ?_⟩
  intro storeOk times rows il tool df hdl
  unfold run_complete_pipeline
  rw [hdl]
  refine ⟨rfl, ?_⟩
  show (mainCsvName :: ((split_monthly_data df).map (fun e => e.2.1)
      ++ (create_geojsons il ((split_monthly_data df).map (fun e => (e.2.1, e.2.2)))).map (fun e => e.1)
      ++ create_mbtiles tool ((create_geojsons il ((split_monthly_data df).map (fun e => (e.2.1, e.2.2)))).map (fun e => e.1))
      ++ ["humidity-tileserver-config.json", "humidity-viewer.html"])).count
        "humidity-tileserver-config.json" = 1
  rw [List.count_cons, List.count_append, List.count_append, List.count_append,
    count_config_monthly, count_config_geojsons, count_config_mbtiles]
  decide

/-! ### Concrete witness inputs -/

/-- A concrete land oracle for witnesses: land exactly when `0 < lat`. -/
def wIsLand : ℚ → ℚ → Bool := fun lat _ => decide (0 < lat)

def wT : Timestamp := ⟨2024, 6⟩

def wRow1 : MonthlyRow := ⟨wT, 10, 20, some 75⟩

def wRow2 : MonthlyRow := ⟨wT, -5, 60, some 80⟩

def wRow3 : MonthlyRow := ⟨wT, 11, 20, none⟩

def wDf : List MonthlyRow := [wRow1, wRow2, wRow3]

def wLand : List MonthlyRow := wDf.filter (fun r => wIsLand r.lat r.lon)

def wLatRes : ℚ := gridRes (wLand.map (fun r => r.lat)) (1/2)

def wLonRes : ℚ := gridRes (wLand.map (fun r => r.lon)) (5/8)

def wFeat : Feature :=
  ⟨[(315/16, 19/2), (325/16, 19/2), (325/16, 21/2), (315/16, 21/2), (315/16, 19/2)],
    75, wT, 10, 20⟩

def wFeats : List Feature := [wFeat]

def wRawT2 : Timestamp := ⟨2023, 2⟩

def wRaw1 : RawRow := ⟨wT, 10, 20, some 75⟩

def wRaw2 : RawRow := ⟨wRawT2, 1, 2, none⟩

def wRawDf : List RawRow := [wRaw1, wRaw2]

/-- A concrete external tool for witnesses: fails exactly when asked to tile
`bad.geojson`. -/
def wTool : List String → ToolRun := fun args =>
  if ("bad.geojson" : String) ∈ args then ⟨1, "boom"⟩ else ⟨0, ""⟩

def wMb1 : String := "humidity_mbtiles_output/humidity_06_2024_land.mbtiles"

def wMb2 : String := "humidity_mbtiles_output/humidity_07_2024_land.mbtiles"

def wTOut : Timestamp := ⟨2021, 12⟩

def wRawOut : RawRow := ⟨wTOut, 3, 4, some 50⟩

def wRawMiss : RawRow := ⟨wT, 5, 6, none⟩

def wFetched : List RawRow := [wRaw1]

/-! ### Witnesses -/

set_option maxRecDepth 10000 in
/-- Witness for C1 at a concrete three-row June 2024 table. -/
theorem csv_to_geojson_gridcell_correct_witness :
    wFeats.length = (wLand.filter (fun r => r.RH2M.isSome)).length :=
  (csv_to_geojson_gridcell_correct wIsLand wDf wLand wLatRes wLonRes wFeats rfl rfl rfl
    (by with_unfolding_all decide)).1

set_option maxRecDepth 10000 in
/-- Witness for C2 at the same table. -/
theorem gridRes_two_smallest_distinct_witness :
    wFeat.coordinates = cellRing wFeat.lon wFeat.lat (wLonRes / 2) (wLatRes / 2) :=
  (gridRes_two_smallest_distinct wIsLand wDf wLand wLatRes wLonRes wFeats rfl rfl rfl
    (by with_unfolding_all decide)).2.2 wFeat (List.mem_cons_self wFeat [])

/-- Witness for C3 at a concrete two-month table. -/
theorem split_monthly_data_partition_witness :
    ((split_monthly_data wRawDf).map (fun e => e.1)).Nodup :=
  (split_monthly_data_partition wRawDf).2.2.1

set_option maxRecDepth 10000 in
/-- Witness for C4 at a one-row all-ocean table. -/
theorem zero_land_month_skipped_witness :
    csv_to_geojson wIsLand [wRow2] = none :=
  (zero_land_month_skipped wIsLand wTool "humidity_data_output/humidity_06_2024.csv"
    [wRow2] [] [] (by with_unfolding_all decide)).1

set_option maxRecDepth 10000 in
/-- Witness for C5 with a tool that fails on `bad.geojson`. -/
theorem tippecanoe_adapter_contract_witness :
    create_mbtiles wTool (["good_land.geojson"] ++ "bad.geojson" :: []) =
      create_mbtiles wTool ["good_land.geojson"] ++ create_mbtiles wTool [] :=
  (tippecanoe_adapter_contract wTool "bad.geojson" "out.mbtiles" ["good_land.geojson"] []
    (by with_unfolding_all decide)).2.2.2

/-- Witness for C6 with an unreachable store. -/
theorem fetch_failure_aborts_witness :
    download_humidity_data false [wT] [wRaw1] = none :=
  (fetch_failure_aborts false [wT] [wRaw1] wIsLand wTool (Or.inl rfl)).1

set_option maxRecDepth 10000 in
/-- Witness for C7 at two concrete monthly archives. -/
theorem tileserver_config_one_entry_per_archive_witness :
    (create_tileserver_config [wMb1, wMb2]).data =
      [wMb1, wMb2].map (fun m => (layerKey m, basename m)) :=
  (tileserver_config_one_entry_per_archive [wMb1, wMb2] (by with_unfolding_all decide)).1

set_option maxRecDepth 10000 in
/-- Witness for C8 at a concrete store with one in-range, one out-of-range and
one missing-value row. -/
theorem fetch_restricts_range_and_drops_missing_witness :
    wRaw1.value.isSome = true :=
  (fetch_restricts_range_and_drops_missing true [wT, wTOut] [wRaw1, wRawOut, wRawMiss]
    wFetched (by with_unfolding_all decide)).2.2 wRaw1 (List.mem_cons_self wRaw1 [])

/-- Witness for C9 at a concrete row. -/
theorem partition_preserves_samples_witness :
    selectColumns (augmentRow wRaw1) = ⟨wRaw1.time, wRaw1.lat, wRaw1.lon, wRaw1.value⟩ :=
  (partition_preserves_samples wRawDf).1 wRaw1

set_option maxRecDepth 10000 in
/-- Witness for C10 at the concrete emitted feature. -/
theorem gridcell_ring_ccw_witness : 0 < shoelaceSum wFeat.coordinates :=
  (((gridcell_ring_ccw wIsLand wDf wLand wLatRes wLonRes wFeats rfl rfl rfl
    (by with_unfolding_all decide)).2.2) wFeat (List.mem_cons_self wFeat [])).2.2

end HumidityPipeline
